import Mathlib

/-!
# Verification of the timed-map store (`src/driver.ts`, `src/index.ts`, `src/events/index.js`)

Shallow embedding of the TypeScript `Driver` class (the TTL-tracking store),
the `TimedMap` wrapper, and the deferred-dispatch `Events` bus.

Modelling conventions
* `Date.now()` is passed explicitly as a `now : Int` argument to every
  operation that reads the clock.
* The JS object `_memoObject : Record<Key, MapEntry>` is a `List (MapEntry V)`
  keyed by each entry's `key` field: JS string-keyed objects iterate in
  insertion order, overwriting a key keeps its position, a fresh key appends.
* `_timer` is modelled as `timer : Bool` meaning "an outstanding (scheduled,
  not yet fired and not cancelled) sweep callback exists": `setTimeout`
  sets it, `clearTimeout` clears it, and firing consumes it before the
  callback body runs.
* Each mutating operation also returns the list of `events.emit` calls the
  driver makes, in order, as an `Emit V` list.
* Values handed to callers via `cloneDeep` are independent copies, which in
  a purely functional model is the default; the one path that hands out the
  internal objects themselves (`Object.values` in the `entries` getter) is
  modelled separately by `mutateEntryViaEntries`.
-/

namespace TimedMapModel

/-- Keys: `KeyType = number|string|symbol`; modelled as strings. -/
abbrev Key := String

/-- `MapEntry` from `src/index.ts`: `{ createdAt, key, ttl, value }`.
`ttl` is optional (`put` may omit it). -/
structure MapEntry (V : Type) where
  createdAt : Int
  key : Key
  ttl : Option Int
  value : V
  deriving Repr, DecidableEq

/-- The `Driver<T>` instance state: `_maxAge`, `_memoObject`, `_pruneDate`,
`_timer` (as "outstanding scheduled sweep"). The `_events` bus is modelled
separately. -/
structure DriverState (V : Type) where
  maxAge : Int
  memo : List (MapEntry V)
  pruneDate : Option Int
  timer : Bool
  deriving Repr, DecidableEq

/-- One `events.emit` call made by the driver, with the data arguments it
passes (the per-type payload projections of `src/events/constants.js`). -/
inductive Emit (V : Type) where
  | autoRenewed (key : Key) (createdAt : Int) (previouslyCreatedAt : Int)
  | cleared (removed : List (MapEntry V))
  | pruned (removed : List (MapEntry V))
  | putEv (current : MapEntry V) (previous : Option (MapEntry V))
  | removedEv (removed : Option (MapEntry V))
  deriving Repr, DecidableEq

variable {V : Type}

/-- `TTL30MINS` from `src/constants.ts`. -/
def TTL30MINS : Int := 1800000

/-- `_isValidTTLInput(ttlInput)`: `isInteger(ttlInput) && this._maxAge !== ttlInput
&& ttlInput > 0`. `cur` is the current `_maxAge` (`none` while still `null`
during construction); the argument is `none` for `undefined` (fails
`isInteger`). Integer-valued inputs satisfy `isInteger`. -/
def isValidTTLInput (cur : Option Int) (ttlInput : Option Int) : Bool :=
  match ttlInput with
  | none => false
  | some n => cur ≠ some n && 0 < n

/-- The constructor `new Driver(maxEntryAgeMillis?)`: `_maxAge` starts `null`,
so validation compares against `null`; falls back to `TTL30MINS`. Fresh state
has an empty map, `null` prune date and no timer. -/
def mkDriver (maxEntryAgeMillis : Option Int) : DriverState V :=
  { maxAge :=
      if isValidTTLInput none maxEntryAgeMillis
        then maxEntryAgeMillis.getD TTL30MINS
        else TTL30MINS
    memo := []
    pruneDate := none
    timer := false }

/-- `key in this._memoObject` / `this._memoObject[key]` lookup. -/
def lookup (memo : List (MapEntry V)) (k : Key) : Option (MapEntry V) :=
  memo.find? (fun e => e.key == k)

/-- `delete this._memoObject[key]`. -/
def eraseKey (memo : List (MapEntry V)) (k : Key) : List (MapEntry V) :=
  memo.filter (fun e => e.key ≠ k)

/-- `this._memoObject[key] = entry`: replaces in place when the key exists,
appends otherwise (JS object semantics). -/
def insertEntry (memo : List (MapEntry V)) (k : Key) (e : MapEntry V) :
    List (MapEntry V) :=
  if (lookup memo k).isSome
    then memo.map (fun o => if o.key == k then e else o)
    else memo ++ [e]

/-- In-place field update of the stored entry at `k`
(`this._memoObject[key].createdAt = ...`). -/
def updateEntry (memo : List (MapEntry V)) (k : Key) (f : MapEntry V → MapEntry V) :
    List (MapEntry V) :=
  memo.map (fun o => if o.key == k then f o else o)

/-- `_isPrunableEntry({createdAt, ttl})`: `Date.now() - createdAt >= (ttl ?? this._maxAge)`. -/
def isPrunableEntry (now : Int) (maxAge : Int) (e : MapEntry V) : Bool :=
  e.ttl.getD maxAge ≤ now - e.createdAt

/-- `_tryResetAging()`: when the map is empty, cancels the timer and nulls
`_pruneDate`, returning `true`; otherwise returns `false` untouched. -/
def tryResetAging (s : DriverState V) : Bool × DriverState V :=
  if s.memo.isEmpty
    then (true, { s with timer := false, pruneDate := none })
    else (false, s)

/-- `_tryStartAging()`: when the map is non-empty, cancels any timer and
schedules a sweep `maxAge` from now, setting `_pruneDate = now + maxAge`,
returning `true`; otherwise returns `false` untouched. -/
def tryStartAging (now : Int) (s : DriverState V) : Bool × DriverState V :=
  if s.memo.isEmpty
    then (false, s)
    else (true, { s with timer := true, pruneDate := some (now + s.maxAge) })

/-- `remove(key)`: clones the entry; absent → returns `undefined` with no
deletion and no emission; present → cleared from the map, `_tryResetAging`,
emits `REMOVED` with the clone, except that a prune-eligible entry is
treated as logically absent (payload and return become `undefined`). -/
def remove (now : Int) (s : DriverState V) (k : Key) :
    Option (MapEntry V) × DriverState V × List (Emit V) :=
  match lookup s.memo k with
  | none => (none, s, [])
  | some e =>
      let ex := if isPrunableEntry now s.maxAge e then none else some e
      let s1 := { s with memo := eraseKey s.memo k }
      let s2 := (tryResetAging s1).2
      (ex, s2, [Emit.removedEv ex])

/-- `has(key)`: absent → `false`; present and prune-eligible → removes it via
`remove` and returns `!!remove(key)` (which is `false`, the removal having
returned `undefined`); otherwise `true`. -/
def has (now : Int) (s : DriverState V) (k : Key) :
    Bool × DriverState V × List (Emit V) :=
  match lookup s.memo k with
  | none => (false, s, [])
  | some e =>
      if isPrunableEntry now s.maxAge e then
        let r := remove now s k
        (r.1.isSome, r.2.1, r.2.2)
      else (true, s, [])

/-- `_getEntry(key)`: `has(key) ? cloneDeep(this._memoObject[key]) : undefined`.
The clone is an independent copy of the stored entry. -/
def getEntryAux (now : Int) (s : DriverState V) (k : Key) :
    Option (MapEntry V) × DriverState V × List (Emit V) :=
  let r := has now s k
  (if r.1 then lookup r.2.1.memo k else none, r.2.1, r.2.2)

/-- `get(key)`: gated on `has`; renews the stored entry's `createdAt` to now,
emits `AUTO_RENEWED(key, createdAt, previouslyCreatedAt)` and returns the
(renewed) entry's value. -/
def get (now : Int) (s : DriverState V) (k : Key) :
    Option V × DriverState V × List (Emit V) :=
  let r := has now s k
  if r.1 then
    match lookup r.2.1.memo k with
    | none => (none, r.2.1, r.2.2)
    | some e =>
        (some e.value,
         { r.2.1 with memo := updateEntry r.2.1.memo k (fun o => { o with createdAt := now }) },
         r.2.2 ++ [Emit.autoRenewed k now e.createdAt])
  else (none, r.2.1, r.2.2)

/-- `getEntry(key)`: takes the clone from `_getEntry` (pre-renewal), then
stamps the *stored* entry's `createdAt` to now, emits `AUTO_RENEWED`, and
returns the pre-renewal clone. -/
def getEntry (now : Int) (s : DriverState V) (k : Key) :
    Option (MapEntry V) × DriverState V × List (Emit V) :=
  let r := getEntryAux now s k
  match r.1 with
  | none => (none, r.2.1, r.2.2)
  | some e =>
      (some e,
       { r.2.1 with memo := updateEntry r.2.1.memo k (fun o => { o with createdAt := now }) },
       r.2.2 ++ [Emit.autoRenewed k now e.createdAt])

/-- `peak(key)`: `this._getEntry(key)?.value`. -/
def peak (now : Int) (s : DriverState V) (k : Key) :
    Option V × DriverState V × List (Emit V) :=
  let r := getEntryAux now s k
  (r.1.map (fun e => e.value), r.2.1, r.2.2)

/-- `put(key, value, ttl?)`: captures `_getEntry(key)` (which may itself
remove an expired prior entry), stores the new entry with `createdAt = now`
and the raw `ttl` argument, starts aging when the map's size is exactly 1
afterwards, emits `PUT(clone of new entry, exEntry)` and returns `exEntry`. -/
def put (now : Int) (s : DriverState V) (k : Key) (v : V) (ttl : Option Int) :
    Option (MapEntry V) × DriverState V × List (Emit V) :=
  let r := getEntryAux now s k
  let newE : MapEntry V := { createdAt := now, key := k, ttl := ttl, value := v }
  let memo2 := insertEntry r.2.1.memo k newE
  let s2 := { r.2.1 with memo := memo2 }
  let s3 := if memo2.length = 1 then (tryStartAging now s2).2 else s2
  (r.1, s3, r.2.2 ++ [Emit.putEv newE r.1])

/-- `clear()`: empty → no-op, nothing emitted; otherwise snapshots the
entries (deep clone), empties the map, `_tryResetAging`, emits `CLEARED`
with the snapshot. -/
def clear (s : DriverState V) : DriverState V × List (Emit V) :=
  if s.memo.isEmpty then (s, [])
  else
    let snapshot := s.memo
    let s1 := (tryResetAging { s with memo := [] }).2
    (s1, [Emit.cleared snapshot])

/-- `_prune()` (the TS driver's sweep body): collects clones of all
prune-eligible entries while deleting them; if nothing was collected it
returns early (no aging change, no emission); otherwise
`!_tryResetAging() && _tryStartAging()` and emits `PRUNED` with the list. -/
def prune (now : Int) (s : DriverState V) : DriverState V × List (Emit V) :=
  let data := s.memo.filter (fun e => isPrunableEntry now s.maxAge e)
  if data.isEmpty then (s, [])
  else
    let s1 := { s with memo := s.memo.filter (fun e => ¬ isPrunableEntry now s.maxAge e) }
    let r := tryResetAging s1
    let s3 := if r.1 then r.2 else (tryStartAging now r.2).2
    (s3, [Emit.pruned data])

/-- A run of the *scheduled* sweep: the timer fires (consuming the
outstanding callback) and then the `_prune` body runs. -/
def fireTimer (now : Int) (s : DriverState V) : DriverState V × List (Emit V) :=
  prune now { s with timer := false }

/-- The `entries` getter: `_prune()` then `Object.values(this._memoObject)`.
The returned array's elements are the stored entry objects themselves
(no `cloneDeep` on this path). -/
def entriesProp (now : Int) (s : DriverState V) :
    List (MapEntry V) × DriverState V × List (Emit V) :=
  let r := prune now s
  (r.1.memo, r.1, r.2)

/-- The `keys` getter: `_prune()` then `Object.keys(this._memoObject)`
(fresh array of primitive strings). -/
def keysProp (now : Int) (s : DriverState V) :
    List Key × DriverState V × List (Emit V) :=
  let r := prune now s
  (r.1.memo.map (fun e => e.key), r.1, r.2)

/-- The `size` getter: `this.keys.length`. -/
def sizeProp (now : Int) (s : DriverState V) :
    Nat × DriverState V × List (Emit V) :=
  let r := keysProp now s
  (r.1.length, r.2.1, r.2.2)

/-- The `isEmpty` getter: `!this.keys.length`. -/
def isEmptyProp (now : Int) (s : DriverState V) :
    Bool × DriverState V × List (Emit V) :=
  let r := keysProp now s
  (r.1.isEmpty, r.2.1, r.2.2)

/-- The `maxEntryAge` setter: invalid input → no-op; otherwise computes
`startDate = this._pruneDate - this._maxAge` (a `null` prune date coerces
to `0` in JS arithmetic), updates `_maxAge`, sets
`_pruneDate = startDate + maxEntryAgeMillis`, cancels any timer and
unconditionally schedules a new sweep. -/
def setMaxEntryAge (m : Option Int) (s : DriverState V) : DriverState V :=
  if isValidTTLInput (some s.maxAge) m then
    let newMax := m.getD 0
    let startDate := s.pruneDate.getD 0 - s.maxAge
    { s with maxAge := newMax, pruneDate := some (startDate + newMax), timer := true }
  else s

/-- Caller-side mutation through the `entries` getter: after
`const arr = map.entries`, the element `arr[i]` *is* the stored entry object
(`Object.values` copies the array, not the elements, and this getter applies
no `cloneDeep`), so `arr[i].field = x` lands on the store's internal entry.
This function returns the store's state after such a mutation `f` of the
`i`-th returned entry. -/
def mutateEntryViaEntries (now : Int) (s : DriverState V) (i : Nat)
    (f : MapEntry V → MapEntry V) : DriverState V :=
  let r := entriesProp now s
  match r.1.get? i with
  | none => r.2.1
  | some e => { r.2.1 with memo := r.2.1.memo.set i (f e) }

/-- Caller-side mutation of the array returned by the `keys` getter: the
elements are primitive strings, so no mutation of them can reach the store;
replacing elements of the (fresh) array leaves the store at its post-prune
state. -/
def mutateKeysArray (now : Int) (s : DriverState V) (_i : Nat) (_newKey : Key) :
    DriverState V :=
  (keysProp now s).2.1

/-! ## The `Events` bus (`src/events/index.js`, deferred-dispatch variant)

Listeners are identified by opaque numeric ids (`fnId` stands for the
function reference). The registry maps each event type to its registered
records, keyed by the monotonically increasing `entryCounter`. `emit`
computes the shared payload only when listeners exist, snapshots the
type's listener map (`cloneDeep`), deletes from the registry every
snapshotted record marked `once`, and schedules the snapshot for deferred
dispatch (`setTimeout(..., 0)`); the scheduled batch later invokes every
snapshotted listener. -/

/-- The six event types of `src/events/constants.js`. -/
inductive EvType where
  | AUTO_RENEWED | CLEARED | CLOSING | PRUNED | PUT | REMOVED
  deriving Repr, DecidableEq

/-- The event type of an `emit` call made by the driver. -/
def Emit.evType : Emit V → EvType
  | .autoRenewed _ _ _ => .AUTO_RENEWED
  | .cleared _ => .CLEARED
  | .pruned _ => .PRUNED
  | .putEv _ _ => .PUT
  | .removedEv _ => .REMOVED

/-- One listener registration: `{ attributes, id, listen, once? }` with the
registration number it is stored under. `fnId` models the listener function
reference. -/
structure ListenerRec where
  regIndex : Nat
  fnId : Nat
  once : Bool
  deriving Repr, DecidableEq

/-- The bus state: `entryCounter` and the per-type registries, flattened as
an insertion-ordered association list from event type to record. -/
structure Bus where
  counter : Nat
  regs : List (EvType × ListenerRec)
  deriving Repr, DecidableEq

/-- A fresh `Events` instance: counter `0`, all registries empty. -/
def Bus.init : Bus := { counter := 0, regs := [] }

/-- `on(type, listener, attributes?)`: registers a persistent record under
`++entryCounter` and returns the new registration number (the id string is
`` `${type}@@@${regIndex}` ``). -/
def Bus.on (t : EvType) (fnId : Nat) (b : Bus) : Nat × Bus :=
  let idx := b.counter + 1
  (idx, { counter := idx, regs := b.regs ++ [(t, ⟨idx, fnId, false⟩)] })

/-- `once(type, listener, attributes?)`: `on` followed by setting the
just-registered record's `once` flag. -/
def Bus.once (t : EvType) (fnId : Nat) (b : Bus) : Nat × Bus :=
  let idx := b.counter + 1
  (idx, { counter := idx, regs := b.regs ++ [(t, ⟨idx, fnId, true⟩)] })

/-- `off(type, listener)`: removes the first registration under `type`
whose stored callback is `listener`; no-op when not found. -/
def Bus.off (t : EvType) (fnId : Nat) (b : Bus) : Bus :=
  match b.regs.find? (fun p => p.1 = t ∧ p.2.fnId = fnId) with
  | none => b
  | some hit => { b with regs := b.regs.eraseP (fun p => p == hit) }

/-- `offById(id)`: parses the type and registration number out of the id
and deletes that exact record. -/
def Bus.offById (t : EvType) (regIndex : Nat) (b : Bus) : Bus :=
  { b with regs := b.regs.filter (fun p => ¬(p.1 = t ∧ p.2.regIndex = regIndex)) }

/-- `emit(type, ...data)` (deferred delivery): when no listeners are
registered for `type`, returns without computing anything and schedules no
batch; otherwise snapshots the type's listeners, deletes every `once`
record of that type from the registry, and schedules the snapshot as one
deferred dispatch unit. Returns the bus plus the scheduled batch (if any). -/
def Bus.emit (t : EvType) (b : Bus) : Bus × Option (List ListenerRec) :=
  let snapshot := (b.regs.filter (fun p => p.1 = t)).map (fun p => p.2)
  if snapshot.isEmpty then (b, none)
  else
    ({ b with regs := b.regs.filter (fun p => ¬(p.1 = t ∧ p.2.once)) },
     some snapshot)

/-- `emitNow(type, ...data)` (immediate delivery, used for `CLOSING`): same
listener computation, but the batch runs synchronously; `once` records
among the invoked listeners are deleted as they run. -/
def Bus.emitNow (t : EvType) (b : Bus) : Bus × List ListenerRec :=
  let invoked := (b.regs.filter (fun p => p.1 = t)).map (fun p => p.2)
  ({ b with regs := b.regs.filter (fun p => ¬(p.1 = t ∧ p.2.once)) }, invoked)

/-! ## Driver + bus + deferred-dispatch queue

`Sys` couples a driver state with its `Events` bus and the queue of
dispatch batches scheduled (via `setTimeout`) but not yet executed, in
scheduling order. Every `emit` call the driver makes is fed to the bus. -/

structure Sys (V : Type) where
  store : DriverState V
  bus : Bus
  pending : List (List ListenerRec)
  deriving Repr, DecidableEq

/-- Feed a list of driver `emit` calls through the bus, appending every
scheduled batch to the pending dispatch queue. -/
def busEmitAll (es : List (Emit V)) (b : Bus) (pending : List (List ListenerRec)) :
    Bus × List (List ListenerRec) :=
  es.foldl
    (fun acc e =>
      let r := Bus.emit e.evType acc.1
      (r.1, acc.2 ++ r.2.toList))
    (b, pending)

/-- `put` at the system level. -/
def Sys.putOp (now : Int) (k : Key) (v : V) (ttl : Option Int) (sys : Sys V) : Sys V :=
  let r := put now sys.store k v ttl
  let rb := busEmitAll r.2.2 sys.bus sys.pending
  { store := r.2.1, bus := rb.1, pending := rb.2 }

/-- `clear` at the system level. -/
def Sys.clearOp (sys : Sys V) : Sys V :=
  let r := clear sys.store
  let rb := busEmitAll r.2 sys.bus sys.pending
  { store := r.1, bus := rb.1, pending := rb.2 }

/-- Total number of invocations listener `fnId` receives once every pending
deferred batch has executed. -/
def Sys.invocations (fnId : Nat) (sys : Sys V) : Nat :=
  (sys.pending.map (fun batch => (batch.filter (fun r => r.fnId = fnId)).length)).sum

/-! ## The `TimedMap` wrapper (`src/index.ts`)

`close()` does `delete this._driver`; afterwards every method and accessor
dereferences `this._driver` (`undefined`) and throws a `TypeError`. The
wrapper is therefore an `Option` of the driver-plus-bus pair, and each
public member is total, returning `Except TMError`. -/

inductive TMError where
  /-- `TypeError: Cannot read properties of undefined` from `this._driver.…` -/
  | closedAccess
  deriving Repr, DecidableEq

/-- A `TimedMap<T>` instance: `some` of its driver and bus, or `none` after
`close()` deleted the `_driver` field. -/
abbrev TM (V : Type) := Option (DriverState V × Bus)

/-- `new TimedMap(maxEntryAgeMillis?)`. -/
def tmNew (maxEntryAgeMillis : Option Int) : TM V :=
  some (mkDriver maxEntryAgeMillis, Bus.init)

/-- `close()`: cancels the timer, emits `CLOSING` synchronously, then
deletes `_driver`. (On an already-closed map it would itself throw; the
claims only need the closed result.) -/
def tmClose : TM V → TM V := fun _ => none

def tmGet (now : Int) (k : Key) : TM V → Except TMError (Option V)
  | none => .error .closedAccess
  | some (d, _) => .ok (get now d k).1

def tmGetEntry (now : Int) (k : Key) : TM V → Except TMError (Option (MapEntry V))
  | none => .error .closedAccess
  | some (d, _) => .ok (getEntry now d k).1

def tmPut (now : Int) (k : Key) (v : V) (ttl : Option Int) :
    TM V → Except TMError (Option (MapEntry V))
  | none => .error .closedAccess
  | some (d, _) => .ok (put now d k v ttl).1

def tmHas (now : Int) (k : Key) : TM V → Except TMError Bool
  | none => .error .closedAccess
  | some (d, _) => .ok (has now d k).1

def tmPeak (now : Int) (k : Key) : TM V → Except TMError (Option V)
  | none => .error .closedAccess
  | some (d, _) => .ok (peak now d k).1

def tmRemove (now : Int) (k : Key) : TM V → Except TMError (Option (MapEntry V))
  | none => .error .closedAccess
  | some (d, _) => .ok (remove now d k).1

def tmClear : TM V → Except TMError Unit
  | none => .error .closedAccess
  | some _ => .ok ()

def tmEntries (now : Int) : TM V → Except TMError (List (MapEntry V))
  | none => .error .closedAccess
  | some (d, _) => .ok (entriesProp now d).1

def tmKeys (now : Int) : TM V → Except TMError (List Key)
  | none => .error .closedAccess
  | some (d, _) => .ok (keysProp now d).1

def tmSize (now : Int) : TM V → Except TMError Nat
  | none => .error .closedAccess
  | some (d, _) => .ok (sizeProp now d).1

def tmIsEmpty (now : Int) : TM V → Except TMError Bool
  | none => .error .closedAccess
  | some (d, _) => .ok (isEmptyProp now d).1

def tmMaxEntryAge : TM V → Except TMError Int
  | none => .error .closedAccess
  | some (d, _) => .ok d.maxAge

def tmSetMaxEntryAge (m : Option Int) : TM V → Except TMError (DriverState V)
  | none => .error .closedAccess
  | some (d, _) => .ok (setMaxEntryAge m d)

def tmOn (t : EvType) (fnId : Nat) : TM V → Except TMError Nat
  | none => .error .closedAccess
  | some (_, b) => .ok (Bus.on t fnId b).1

def tmOnce (t : EvType) (fnId : Nat) : TM V → Except TMError Nat
  | none => .error .closedAccess
  | some (_, b) => .ok (Bus.once t fnId b).1

def tmOff (t : EvType) (fnId : Nat) : TM V → Except TMError Bus
  | none => .error .closedAccess
  | some (_, b) => .ok (Bus.off t fnId b)

def tmOffById (t : EvType) (regIndex : Nat) : TM V → Except TMError Bus
  | none => .error .closedAccess
  | some (_, b) => .ok (Bus.offById t regIndex b)

/-! ## The invariant claimed for the timer (spec §3) -/

/-- "`timer` is non-null if and only if `entries` is non-empty": an
outstanding scheduled sweep exists exactly when the map holds entries. -/
def Inv (s : DriverState V) : Prop :=
  s.timer = true ↔ s.memo ≠ []

instance [DecidableEq V] (s : DriverState V) : Decidable (Inv s) := by
  unfold Inv; infer_instance

/-! ## Shared concrete example states -/

/-- `new Driver(500)` with values of type `String`. -/
def exS0 : DriverState String := mkDriver (some 500)

/-- `exS0` after `put('a', 'x', 1000)` at time `0`. -/
def exS1 : DriverState String := (put 0 exS0 "a" "x" (some 1000)).2.1

/-- `exS0` after `put('a', 'x', 10)` at time `0` (expired by time `10`). -/
def exExp : DriverState String := (put 0 exS0 "a" "x" (some 10)).2.1

/-- A system with a single `once(CLEARED, fn₇)` subscription on a fresh
store `new Driver(500)`. -/
def exSys0 : Sys String :=
  { store := mkDriver (some 500)
    bus := (Bus.once .CLEARED 7 Bus.init).2
    pending := [] }

/-- `exSys0` after `put` then two `clear` calls, all before any deferred
dispatch has run. -/
def exSysFinal : Sys String :=
  ((exSys0.putOp 0 "a" "x" none).clearOp).clearOp

/-! ## Helper lemmas on the association-list primitives -/

theorem lookup_eq_some_key {memo : List (MapEntry V)} {k : Key} {e : MapEntry V}
    (h : lookup memo k = some e) : e.key = k := by
  have := List.find?_some h
  simpa using this

theorem lookup_eq_some_mem {memo : List (MapEntry V)} {k : Key} {e : MapEntry V}
    (h : lookup memo k = some e) : e ∈ memo :=
  List.mem_of_find?_eq_some h

theorem lookup_ne_nil {memo : List (MapEntry V)} {k : Key} {e : MapEntry V}
    (h : lookup memo k = some e) : memo ≠ [] := by
  intro hnil
  subst hnil
  simp [lookup] at h

theorem lookup_updateEntry_self {memo : List (MapEntry V)} {k : Key} {e : MapEntry V}
    {f : MapEntry V → MapEntry V} (hf : ∀ x, (f x).key = x.key)
    (h : lookup memo k = some e) :
    lookup (updateEntry memo k f) k = some (f e) := by
  induction memo with
  | nil => simp [lookup] at h
  | cons o rest ih =>
      by_cases hk : o.key = k
      · simp [lookup, List.find?_cons, hk] at h
        simp [lookup, updateEntry, List.find?_cons, hk, hf, ← h]
      · simp [lookup, List.find?_cons, hk] at h
        have := ih h
        simp [lookup, updateEntry, List.find?_cons, hk, hf] at this ⊢
        exact this

theorem lookup_eraseKey_self (memo : List (MapEntry V)) (k : Key) :
    lookup (eraseKey memo k) k = none := by
  induction memo with
  | nil => simp [lookup, eraseKey]
  | cons o rest ih =>
      by_cases hk : o.key = k
      · simp only [lookup, eraseKey] at ih ⊢
        simp [hk, ih]
      · simp only [lookup, eraseKey] at ih ⊢
        simp [List.find?_cons, hk, ih]

theorem lookup_insertEntry_self (memo : List (MapEntry V)) (k : Key) (e : MapEntry V)
    (hk : e.key = k) : lookup (insertEntry memo k e) k = some e := by
  unfold insertEntry
  by_cases hs : (lookup memo k).isSome
  · simp only [hs, if_pos]
    obtain ⟨o, ho⟩ := Option.isSome_iff_exists.mp hs
    clear hs
    induction memo with
    | nil => simp [lookup] at ho
    | cons p rest ih =>
        by_cases hp : p.key = k
        · simp [lookup, List.find?_cons, hp, hk]
        · simp [lookup, List.find?_cons, hp] at ho
          have := ih ho
          simpa [lookup, List.find?_cons, hp] using this
  · simp only [hs, if_neg, Bool.not_eq_true]
    have hnone : List.find? (fun o => o.key == k) memo = none := by
      cases hmo : lookup memo k with
      | none => exact hmo
      | some o => rw [hmo] at hs; simp at hs
    simp [lookup, List.find?_append, hnone, hk]

theorem insertEntry_ne_nil (memo : List (MapEntry V)) (k : Key) (e : MapEntry V) :
    insertEntry memo k e ≠ [] := by
  unfold insertEntry
  split
  · intro h
    rcases memo with _ | ⟨o, rest⟩
    · simp [lookup] at *
    · simp at h
  · simp

theorem tryResetAging_memo (s : DriverState V) : ((tryResetAging s).2).memo = s.memo := by
  unfold tryResetAging; split <;> rfl

theorem tryStartAging_memo (now : Int) (s : DriverState V) :
    ((tryStartAging now s).2).memo = s.memo := by
  unfold tryStartAging; split <;> rfl

theorem tryResetAging_inv (s : DriverState V) (h : Inv s) :
    Inv (tryResetAging s).2 := by
  unfold tryResetAging
  split
  · next hemp =>
      constructor
      · intro h1; simp at h1
      · intro h1
        simp only [List.isEmpty_iff] at hemp
        exact absurd hemp h1
  · exact h

theorem tryStartAging_inv (now : Int) (s : DriverState V) (h : Inv s) :
    Inv (tryStartAging now s).2 := by
  unfold tryStartAging
  split
  · exact h
  · next hemp =>
      simp only [List.isEmpty_iff] at hemp
      exact ⟨fun _ => hemp, fun _ => rfl⟩

/-! ### Case shapes of `remove`, `has` and `_getEntry` -/

theorem remove_absent {now : Int} {s : DriverState V} {k : Key}
    (h : lookup s.memo k = none) : remove now s k = (none, s, []) := by
  simp [remove, h]

theorem remove_valid {now : Int} {s : DriverState V} {k : Key} {e : MapEntry V}
    (h : lookup s.memo k = some e) (hv : isPrunableEntry now s.maxAge e = false) :
    remove now s k
      = (some e, (tryResetAging { s with memo := eraseKey s.memo k }).2,
         [Emit.removedEv (some e)]) := by
  simp [remove, h, hv]

theorem remove_prunable {now : Int} {s : DriverState V} {k : Key} {e : MapEntry V}
    (h : lookup s.memo k = some e) (hp : isPrunableEntry now s.maxAge e = true) :
    remove now s k
      = (none, (tryResetAging { s with memo := eraseKey s.memo k }).2,
         [Emit.removedEv none]) := by
  simp [remove, h, hp]

theorem has_absent {now : Int} {s : DriverState V} {k : Key}
    (h : lookup s.memo k = none) : has now s k = (false, s, []) := by
  simp [has, h]

theorem has_valid {now : Int} {s : DriverState V} {k : Key} {e : MapEntry V}
    (h : lookup s.memo k = some e) (hv : isPrunableEntry now s.maxAge e = false) :
    has now s k = (true, s, []) := by
  simp [has, h, hv]

theorem has_prunable {now : Int} {s : DriverState V} {k : Key} {e : MapEntry V}
    (h : lookup s.memo k = some e) (hp : isPrunableEntry now s.maxAge e = true) :
    has now s k
      = (false, (tryResetAging { s with memo := eraseKey s.memo k }).2,
         [Emit.removedEv none]) := by
  simp [has, h, hp, remove_prunable h hp]

theorem getEntryAux_absent {now : Int} {s : DriverState V} {k : Key}
    (h : lookup s.memo k = none) : getEntryAux now s k = (none, s, []) := by
  simp [getEntryAux, has_absent h]

theorem getEntryAux_valid {now : Int} {s : DriverState V} {k : Key} {e : MapEntry V}
    (h : lookup s.memo k = some e) (hv : isPrunableEntry now s.maxAge e = false) :
    getEntryAux now s k = (some e, s, []) := by
  simp [getEntryAux, has_valid h hv, h]

theorem getEntryAux_prunable {now : Int} {s : DriverState V} {k : Key} {e : MapEntry V}
    (h : lookup s.memo k = some e) (hp : isPrunableEntry now s.maxAge e = true) :
    getEntryAux now s k
      = (none, (tryResetAging { s with memo := eraseKey s.memo k }).2,
         [Emit.removedEv none]) := by
  simp [getEntryAux, has_prunable h hp]

/-- The sweep leaves exactly the non-prune-eligible entries in the map. -/
theorem prune_memo (now : Int) (s : DriverState V) :
    ((prune now s).1).memo
      = s.memo.filter (fun e => ¬ isPrunableEntry now s.maxAge e) := by
  unfold prune
  dsimp only
  split
  · next hemp =>
      simp only [List.isEmpty_eq_true, List.filter_eq_nil_iff] at hemp
      have h2 : List.filter (fun e => !isPrunableEntry now s.maxAge e) s.memo = s.memo :=
        List.filter_eq_self.mpr (fun a ha => by simp [hemp a ha])
      simp [h2]
  · split
    · simp [tryResetAging_memo]
    · simp [tryStartAging_memo, tryResetAging_memo]

/-! ## C1 -/

/-- C1: an entry is eligible for eviction — removed by the sweep, and
removed-on-access by `has` (hence by `get`/`getEntry`/`peak`, all gated on
`has`) — exactly when `now - createdAt >= (ttl ?? storeMaxAge)`; the
entry-specific ttl overrides the class TTL, so after `Store(500)` and
`put('a','x',1000)` at time 0, `has('a')` is `true` at 500ms elapsed and
`false` at 1000ms elapsed. -/
theorem C1_eviction_eligibility :
    (∀ (now maxAge : Int) (e : MapEntry String),
        isPrunableEntry now maxAge e = true ↔ e.ttl.getD maxAge ≤ now - e.createdAt)
    ∧ (∀ (now : Int) (s : DriverState String) (k : Key) (e : MapEntry String),
        lookup s.memo k = some e →
        (((has now s k).1 = false ↔ isPrunableEntry now s.maxAge e = true)
          ∧ (isPrunableEntry now s.maxAge e = true →
              lookup ((has now s k).2.1).memo k = none)))
    ∧ (∀ (now : Int) (s : DriverState String) (e : MapEntry String),
        e ∈ ((prune now s).1).memo
          ↔ (e ∈ s.memo ∧ isPrunableEntry now s.maxAge e = false))
    ∧ ((has 500 exS1 "a").1 = true ∧ (has 1000 exS1 "a").1 = false) := by
  refine ⟨?_, ?_, ?_, by decide, by decide⟩
  · intro now maxAge e
    simp [isPrunableEntry]
  · intro now s k e h
    unfold has
    rw [h]
    by_cases hp : isPrunableEntry now s.maxAge e = true
    · simp only [hp, if_pos]
      constructor
      · simp [remove, h, hp]
      · intro _
        simp [remove, h, hp, lookup_eraseKey_self, tryResetAging_memo]
    · simp only [hp, if_neg, Bool.not_eq_true]
      simp only [Bool.not_eq_true] at hp
      simp [hp]
  · intro now s e
    rw [prune_memo]
    simp [List.mem_filter]

/-- Witness for C1: instantiates the `has`-removal conjunct on the concrete
expired scenario (`Store(500)`, `put('a','x',1000)`, at 1000ms). -/
theorem C1_eviction_eligibility_witness :
    lookup exS1.memo "a" = some ⟨0, "a", some 1000, "x"⟩
    ∧ (((has 1000 exS1 "a").1 = false
          ↔ isPrunableEntry 1000 exS1.maxAge ⟨0, "a", some 1000, "x"⟩ = true)
        ∧ (isPrunableEntry 1000 exS1.maxAge ⟨0, "a", some 1000, "x"⟩ = true →
            lookup ((has 1000 exS1 "a").2.1).memo "a" = none)) :=
  ⟨by decide, C1_eviction_eligibility.2.1 1000 exS1 "a" ⟨0, "a", some 1000, "x"⟩ (by decide)⟩

/-! ## C6 -/

/-- C6: `remove(key)` returns the removed entry when present and still
valid, and `undefined` when absent or already prune-eligible; in the
expired case the entry is still deleted; whenever a `REMOVED` event is
emitted its payload is exactly the returned value; and after `remove(key)`
the key is gone, so `has(key)` is `false`. -/
theorem C6_remove_semantics :
    ∀ (now : Int) (s : DriverState String) (k : Key),
      (lookup s.memo k = none → remove now s k = (none, s, []))
      ∧ (∀ e, lookup s.memo k = some e →
          ((isPrunableEntry now s.maxAge e = false →
              (remove now s k).1 = some e
              ∧ (remove now s k).2.2 = [Emit.removedEv (some e)])
            ∧ (isPrunableEntry now s.maxAge e = true →
              (remove now s k).1 = none
              ∧ (remove now s k).2.2 = [Emit.removedEv none])
            ∧ lookup ((remove now s k).2.1).memo k = none))
      ∧ ((remove now s k).2.2 = []
          ∨ (remove now s k).2.2 = [Emit.removedEv (remove now s k).1])
      ∧ (has now ((remove now s k).2.1) k).1 = false := by
  intro now s k
  refine ⟨fun h => remove_absent h, ?_, ?_, ?_⟩
  · intro e h
    refine ⟨?_, ?_, ?_⟩
    · intro hv; rw [remove_valid h hv]; exact ⟨rfl, rfl⟩
    · intro hp; rw [remove_prunable h hp]; exact ⟨rfl, rfl⟩
    · cases hp : isPrunableEntry now s.maxAge e with
      | false => rw [remove_valid h hp]; simp [tryResetAging_memo, lookup_eraseKey_self]
      | true => rw [remove_prunable h hp]; simp [tryResetAging_memo, lookup_eraseKey_self]
  · cases h : lookup s.memo k with
    | none => exact Or.inl (by rw [remove_absent h])
    | some e =>
        refine Or.inr ?_
        cases hp : isPrunableEntry now s.maxAge e with
        | false => rw [remove_valid h hp]
        | true => rw [remove_prunable h hp]
  · cases h : lookup s.memo k with
    | none => rw [remove_absent h, has_absent h]
    | some e =>
        have hl : lookup ((remove now s k).2.1).memo k = none := by
          cases hp : isPrunableEntry now s.maxAge e with
          | false => rw [remove_valid h hp]; simp [tryResetAging_memo, lookup_eraseKey_self]
          | true => rw [remove_prunable h hp]; simp [tryResetAging_memo, lookup_eraseKey_self]
        rw [has_absent hl]

/-- Witness for C6: the valid-removal branch on `Store(500)` after
`put('a','x',1000)`, removed at 100ms. -/
theorem C6_remove_semantics_witness :
    lookup exS1.memo "a" = some ⟨0, "a", some 1000, "x"⟩
    ∧ ((isPrunableEntry 100 exS1.maxAge ⟨0, "a", some 1000, "x"⟩ = false →
          (remove 100 exS1 "a").1 = some ⟨0, "a", some 1000, "x"⟩
          ∧ (remove 100 exS1 "a").2.2 = [Emit.removedEv (some ⟨0, "a", some 1000, "x"⟩)])
        ∧ (isPrunableEntry 100 exS1.maxAge ⟨0, "a", some 1000, "x"⟩ = true →
          (remove 100 exS1 "a").1 = none
          ∧ (remove 100 exS1 "a").2.2 = [Emit.removedEv none])
        ∧ lookup ((remove 100 exS1 "a").2.1).memo "a" = none) :=
  ⟨by decide,
   (C6_remove_semantics 100 exS1 "a").2.1 ⟨0, "a", some 1000, "x"⟩ (by decide)⟩

/-! ## C10 -/

/-- The state `put` leaves behind carries exactly the freshly inserted
entry at `key` on top of the post-`_getEntry` map (`_tryStartAging` never
changes the map itself). -/
theorem put_memo (now : Int) (s : DriverState V) (k : Key) (v : V) (ttl : Option Int) :
    ((put now s k v ttl).2.1).memo
      = insertEntry ((getEntryAux now s k).2.1).memo k ⟨now, k, ttl, v⟩ := by
  unfold put
  dsimp only
  split
  · rw [tryStartAging_memo]
  · rfl

/-- C10: `put` stores the raw per-entry `ttl` argument without validation,
so for `ttl <= 0` the created entry is immediately prune-eligible: a `has`
at the same instant returns `false` and deletes it. -/
theorem C10_put_unvalidated_ttl :
    ∀ (now : Int) (s : DriverState String) (k : Key) (v : String) (ttl : Int),
      lookup ((put now s k v (some ttl)).2.1).memo k = some ⟨now, k, some ttl, v⟩
      ∧ (ttl ≤ 0 →
          (has now ((put now s k v (some ttl)).2.1) k).1 = false
          ∧ lookup ((has now ((put now s k v (some ttl)).2.1) k).2.1).memo k = none) := by
  intro now s k v ttl
  have hmem : lookup ((put now s k v (some ttl)).2.1).memo k
      = some ⟨now, k, some ttl, v⟩ := by
    rw [put_memo]
    exact lookup_insertEntry_self _ _ _ rfl
  refine ⟨hmem, fun hle => ?_⟩
  have hp : isPrunableEntry now ((put now s k v (some ttl)).2.1).maxAge
      ⟨now, k, some ttl, v⟩ = true := by
    simp only [isPrunableEntry, Option.getD_some, decide_eq_true_eq]
    omega
  rw [has_prunable hmem hp]
  exact ⟨rfl, by simp [tryResetAging_memo, lookup_eraseKey_self]⟩

/-- Witness for C10: `put('k','v', 0)` at time 50 on `Store(500)`. -/
theorem C10_put_unvalidated_ttl_witness :
    (0 : Int) ≤ 0
    ∧ ((has 50 ((put 50 exS0 "k" "v" (some 0)).2.1) "k").1 = false
        ∧ lookup ((has 50 ((put 50 exS0 "k" "v" (some 0)).2.1) "k").2.1).memo "k" = none) :=
  ⟨le_refl 0, (C10_put_unvalidated_ttl 50 exS0 "k" "v" 0).2 (le_refl 0)⟩

/-! ## C9 -/

/-- C9: after `close()` every further operation — `get`, `getEntry`, `put`,
`has`, `peak`, `remove`, `clear`, the `entries`/`keys`/`size`/`isEmpty`/
`maxEntryAge` accessors (read and write) and the event methods `on`/`once`/
`off`/`offById` — fails fast with an error (the `TypeError` from
dereferencing the deleted `_driver`) rather than silently doing nothing. -/
theorem C9_fail_fast_after_close :
    ∀ (tm : TM String) (now : Int) (k : Key) (v : String) (ttl m : Option Int)
      (t : EvType) (fnId ri : Nat),
      tmGet now k (tmClose tm) = .error .closedAccess
      ∧ tmGetEntry now k (tmClose tm) = .error .closedAccess
      ∧ tmPut now k v ttl (tmClose tm) = .error .closedAccess
      ∧ tmHas now k (tmClose tm) = .error .closedAccess
      ∧ tmPeak now k (tmClose tm) = .error .closedAccess
      ∧ tmRemove now k (tmClose tm) = .error .closedAccess
      ∧ tmClear (tmClose tm) = .error .closedAccess
      ∧ tmEntries now (tmClose tm) = .error .closedAccess
      ∧ tmKeys now (tmClose tm) = .error .closedAccess
      ∧ tmSize now (tmClose tm) = .error .closedAccess
      ∧ tmIsEmpty now (tmClose tm) = .error .closedAccess
      ∧ tmMaxEntryAge (tmClose tm) = .error .closedAccess
      ∧ tmSetMaxEntryAge m (tmClose tm) = .error .closedAccess
      ∧ tmOn t fnId (tmClose tm) = .error .closedAccess
      ∧ tmOnce t fnId (tmClose tm) = .error .closedAccess
      ∧ tmOff t fnId (tmClose tm) = .error .closedAccess
      ∧ tmOffById t ri (tmClose tm) = .error .closedAccess := by
  intro tm now k v ttl m t fnId ri
  exact ⟨rfl, rfl, rfl, rfl, rfl, rfl, rfl, rfl, rfl, rfl, rfl, rfl, rfl, rfl, rfl, rfl,
    rfl⟩

/-! ## C3 -/

/-- Counterexample to C3: `Store(500)`, `put('a','x',1000)` at time 0,
`getEntry('a')` at time 5. The copy handed back has `createdAt = 0` (the
pre-renewal value), not the new renewal timestamp 5, although the stored
entry was stamped to 5. -/
theorem C3_counterexample :
    (getEntry 5 exS1 "a").1.map MapEntry.createdAt = some 0
    ∧ ¬ (getEntry 5 exS1 "a").1.map MapEntry.createdAt = some 5
    ∧ lookup ((getEntry 5 exS1 "a").2.1).memo "a"
        = some ⟨5, "a", some 1000, "x"⟩ := by decide

/-- C3 (amended): for a key holding a valid entry, `getEntry(key)` stamps
`createdAt = now` on the *stored* entry and emits `AUTO_RENEWED` with
`{key, createdAt, previouslyCreatedAt}` exactly as `get` does, but the
copy it returns is the entry *as of before the renewal*: its `createdAt`
equals `previouslyCreatedAt`, not the new timestamp. -/
theorem C3_getEntry_renews_returns_prior_copy :
    ∀ (now : Int) (s : DriverState String) (k : Key) (e : MapEntry String),
      lookup s.memo k = some e → isPrunableEntry now s.maxAge e = false →
      (getEntry now s k).1 = some e
      ∧ lookup ((getEntry now s k).2.1).memo k = some { e with createdAt := now }
      ∧ (getEntry now s k).2.2 = [Emit.autoRenewed k now e.createdAt]
      ∧ (get now s k).2.2 = [Emit.autoRenewed k now e.createdAt] := by
  intro now s k e h hv
  have haux := getEntryAux_valid h hv
  refine ⟨?_, ?_, ?_, ?_⟩
  · simp [getEntry, haux]
  · simp only [getEntry, haux]
    exact lookup_updateEntry_self (fun x => rfl) h
  · simp [getEntry, haux]
  · simp [get, has_valid h hv, h]

/-- Witness for C3's amended theorem: `getEntry` at time 5 on the
`put('a','x',1000)`-at-0 store. -/
theorem C3_getEntry_renews_returns_prior_copy_witness :
    lookup exS1.memo "a" = some ⟨0, "a", some 1000, "x"⟩
    ∧ isPrunableEntry 5 exS1.maxAge ⟨0, "a", some 1000, "x"⟩ = false
    ∧ ((getEntry 5 exS1 "a").1 = some ⟨0, "a", some 1000, "x"⟩
        ∧ lookup ((getEntry 5 exS1 "a").2.1).memo "a" = some ⟨5, "a", some 1000, "x"⟩
        ∧ (getEntry 5 exS1 "a").2.2 = [Emit.autoRenewed "a" 5 0]
        ∧ (get 5 exS1 "a").2.2 = [Emit.autoRenewed "a" 5 0]) :=
  ⟨by decide, by decide,
   C3_getEntry_renews_returns_prior_copy 5 exS1 "a" ⟨0, "a", some 1000, "x"⟩
     (by decide) (by decide)⟩

/-! ## C5 -/

/-- Counterexample to C5: on a prune-eligible entry (`put('a','x',10)` at 0,
`peak` at 10) `peak` is not emission-free: the `has` call inside
`_getEntry` removes the entry, emitting `REMOVED`, and `peak` returns
`undefined`. -/
theorem C5_counterexample :
    (peak 10 exExp "a").2.2 = [Emit.removedEv none]
    ∧ ((peak 10 exExp "a").2.2 = [] → False)
    ∧ (peak 10 exExp "a").1 = none
    ∧ ((peak 10 exExp "a").2.1).memo = [] := by decide

/-- C5 (amended): `peak` never rewrites any entry (all surviving entries
are unchanged originals, so no `createdAt` moves) and emits nothing when
the key is absent or its entry still valid, returning the value; but on a
prune-eligible entry it removes it (emitting `REMOVED` with `undefined`)
and returns `undefined`. -/
theorem C5_peak_nonrenewing :
    ∀ (now : Int) (s : DriverState String) (k : Key),
      (lookup s.memo k = none → peak now s k = (none, s, []))
      ∧ (∀ e, lookup s.memo k = some e → isPrunableEntry now s.maxAge e = false →
          peak now s k = (some e.value, s, []))
      ∧ (∀ e, lookup s.memo k = some e → isPrunableEntry now s.maxAge e = true →
          peak now s k
            = (none, (tryResetAging { s with memo := eraseKey s.memo k }).2,
               [Emit.removedEv none]))
      ∧ (∀ x, x ∈ ((peak now s k).2.1).memo → x ∈ s.memo) := by
  intro now s k
  refine ⟨fun h => by simp [peak, getEntryAux_absent h], ?_, ?_, ?_⟩
  · intro e h hv; simp [peak, getEntryAux_valid h hv]
  · intro e h hp; simp [peak, getEntryAux_prunable h hp]
  · intro x hx
    have hstate : ((peak now s k).2.1).memo = s.memo
        ∨ ((peak now s k).2.1).memo = eraseKey s.memo k := by
      cases h : lookup s.memo k with
      | none => exact Or.inl (by simp [peak, getEntryAux_absent h])
      | some e =>
          cases hp : isPrunableEntry now s.maxAge e with
          | false => exact Or.inl (by simp [peak, getEntryAux_valid h hp])
          | true =>
              refine Or.inr ?_
              simp [peak, getEntryAux_prunable h hp, tryResetAging_memo]
    rcases hstate with hst | hst
    · rwa [hst] at hx
    · rw [hst] at hx
      exact (List.mem_filter.mp hx).1

/-- Witness for C5's amended theorem: the valid-entry branch at 5ms. -/
theorem C5_peak_nonrenewing_witness :
    lookup exS1.memo "a" = some ⟨0, "a", some 1000, "x"⟩
    ∧ isPrunableEntry 5 exS1.maxAge ⟨0, "a", some 1000, "x"⟩ = false
    ∧ peak 5 exS1 "a" = (some "x", exS1, []) :=
  ⟨by decide, by decide,
   (C5_peak_nonrenewing 5 exS1 "a").2.1 ⟨0, "a", some 1000, "x"⟩ (by decide) (by decide)⟩

/-! ## C8 -/

/-- Counterexample to C8: a sweep over `Store(500)` holding the
still-valid `put('a','x',1000)`-at-0 entry at time 100 removes nothing and
emits nothing — not even an empty-list `PRUNED` — whether invoked lazily
or by the timer. -/
theorem C8_counterexample :
    exS1.memo ≠ []
    ∧ (prune 100 exS1).2 = []
    ∧ (fireTimer 100 exS1).2 = [] := by decide

/-- C8 (amended): a run of the pruning sweep emits `PRUNED` carrying
exactly the list of removed (prune-eligible) entries when at least one
entry was removed; a sweep that finds nothing to remove returns early and
emits nothing. -/
theorem C8_prune_emission :
    ∀ (now : Int) (s : DriverState String),
      (prune now s).2
        = (if (s.memo.filter (fun e => isPrunableEntry now s.maxAge e)).isEmpty
            then []
            else [Emit.pruned (s.memo.filter (fun e => isPrunableEntry now s.maxAge e))])
      ∧ (fireTimer now s).2
        = (if (s.memo.filter (fun e => isPrunableEntry now s.maxAge e)).isEmpty
            then []
            else [Emit.pruned (s.memo.filter (fun e => isPrunableEntry now s.maxAge e))]) := by
  intro now s
  constructor
  · unfold prune
    dsimp only
    split
    · next h => simp [h]
    · next h => simp [h]
  · unfold fireTimer prune
    dsimp only
    split
    · next h => simp [h]
    · next h => simp [h]

/-! ## C4 -/

/-- Counterexample to C4: the `entries` getter hands back the internal
entry objects themselves (`Object.values` with no `cloneDeep`), so setting
`createdAt = 99` on the returned entry rewrites the Store's internal
entry. -/
theorem C4_counterexample :
    (entriesProp 100 exS1).1 = [⟨0, "a", some 1000, "x"⟩]
    ∧ (mutateEntryViaEntries 100 exS1 0 (fun e => { e with createdAt := 99 })).memo
        = [⟨99, "a", some 1000, "x"⟩]
    ∧ ¬ (mutateEntryViaEntries 100 exS1 0 (fun e => { e with createdAt := 99 })).memo
        = ((entriesProp 100 exS1).2.1).memo := by decide

/-- C4 (amended): `keys` returns an independent fresh array of primitive
strings — mutating it cannot affect the Store — but `entries` returns the
internal entry objects themselves: a caller-side field mutation of the
`i`-th returned entry lands on the Store's internal `i`-th entry. -/
theorem C4_entries_alias_keys_copy :
    ∀ (now : Int) (s : DriverState String) (i : Nat) (e : MapEntry String)
      (f : MapEntry String → MapEntry String),
      (entriesProp now s).1.get? i = some e →
      ((mutateEntryViaEntries now s i f).memo.get? i = some (f e)
        ∧ ∀ (nk : Key), mutateKeysArray now s i nk = (keysProp now s).2.1) := by
  intro now s i e f h
  have hlen : i < ((entriesProp now s).2.1).memo.length := by
    have := List.get?_eq_some.mp h
    exact this.1
  constructor
  · unfold mutateEntryViaEntries
    dsimp only
    rw [h]
    simp [List.getElem?_set_self hlen]
  · intro nk; rfl

/-- Witness for C4's amended theorem: the concrete one-entry store. -/
theorem C4_entries_alias_keys_copy_witness :
    (entriesProp 100 exS1).1.get? 0 = some ⟨0, "a", some 1000, "x"⟩
    ∧ ((mutateEntryViaEntries 100 exS1 0
          (fun e => { e with createdAt := 99 })).memo.get? 0
        = some ⟨99, "a", some 1000, "x"⟩
      ∧ ∀ (nk : Key),
          mutateKeysArray 100 exS1 0 nk = (keysProp 100 exS1).2.1) :=
  ⟨by decide,
   C4_entries_alias_keys_copy 100 exS1 0 ⟨0, "a", some 1000, "x"⟩
     (fun e => { e with createdAt := 99 }) (by decide)⟩

/-! ## C2 -/

/-- `_tryResetAging` establishes the timer invariant whenever the input's
timer is already correct on the non-empty side. -/
theorem tryResetAging_inv2 (s : DriverState V) (h : s.memo ≠ [] → s.timer = true) :
    Inv (tryResetAging s).2 := by
  unfold tryResetAging
  split
  · next hemp =>
      simp only [List.isEmpty_eq_true] at hemp
      exact ⟨fun hc => by simp at hc, fun hc => absurd hemp hc⟩
  · next hemp =>
      simp only [List.isEmpty_eq_true] at hemp
      exact ⟨fun _ => hemp, fun hne => h hne⟩

/-- The `!_tryResetAging() && _tryStartAging()` combination establishes the
timer invariant unconditionally: an emptied map ends with no timer, a
non-empty map ends with a freshly scheduled sweep. -/
theorem resetOrStart_inv (now : Int) (s : DriverState V) :
    Inv (if (tryResetAging s).1 then (tryResetAging s).2
         else (tryStartAging now (tryResetAging s).2).2) := by
  unfold tryResetAging tryStartAging
  by_cases hemp : s.memo.isEmpty
  · rw [if_pos hemp, if_pos hemp]
    simp only [if_pos, List.isEmpty_eq_true] at hemp ⊢
    exact ⟨fun hc => by simp at hc, fun hc => absurd hemp hc⟩
  · rw [if_neg hemp, if_neg hemp]
    simp only [Bool.false_eq_true, if_false]
    simp only [List.isEmpty_eq_true] at hemp
    exact ⟨fun _ => hemp, fun _ => rfl⟩

/-- A sweep that found nothing prune-eligible is a pure no-op. -/
theorem prune_of_no_prunable (now : Int) (s : DriverState V)
    (hemp : (s.memo.filter (fun e => isPrunableEntry now s.maxAge e)).isEmpty = true) :
    prune now s = (s, []) := by
  unfold prune
  dsimp only
  rw [if_pos hemp]

/-- A sweep that removed something re-establishes the timer invariant
unconditionally. -/
theorem prune_state_inv (now : Int) (s : DriverState V)
    (hne : (s.memo.filter (fun e => isPrunableEntry now s.maxAge e)).isEmpty = false) :
    Inv (prune now s).1 := by
  unfold prune
  dsimp only
  rw [if_neg (by simp [hne])]
  exact resetOrStart_inv now _

theorem prune_inv (now : Int) (s : DriverState V) (h : Inv s) : Inv (prune now s).1 := by
  cases hemp : (s.memo.filter (fun e => isPrunableEntry now s.maxAge e)).isEmpty with
  | true => rw [prune_of_no_prunable now s hemp]; exact h
  | false => exact prune_state_inv now s hemp

theorem remove_inv (now : Int) (s : DriverState V) (k : Key) (h : Inv s) :
    Inv (remove now s k).2.1 := by
  cases hl : lookup s.memo k with
  | none => rw [remove_absent hl]; exact h
  | some e =>
      have htimer : s.timer = true := h.mpr (lookup_ne_nil hl)
      cases hp : isPrunableEntry now s.maxAge e with
      | false =>
          rw [remove_valid hl hp]
          exact tryResetAging_inv2 _ (fun _ => htimer)
      | true =>
          rw [remove_prunable hl hp]
          exact tryResetAging_inv2 _ (fun _ => htimer)

theorem has_inv (now : Int) (s : DriverState V) (k : Key) (h : Inv s) :
    Inv (has now s k).2.1 := by
  cases hl : lookup s.memo k with
  | none => rw [has_absent hl]; exact h
  | some e =>
      cases hp : isPrunableEntry now s.maxAge e with
      | false => rw [has_valid hl hp]; exact h
      | true =>
          rw [has_prunable hl hp]
          exact tryResetAging_inv2 _ (fun _ => h.mpr (lookup_ne_nil hl))

theorem getEntryAux_inv (now : Int) (s : DriverState V) (k : Key) (h : Inv s) :
    Inv (getEntryAux now s k).2.1 :=
  has_inv now s k h

/-- In-place entry updates never change which keys exist, so they carry the
timer invariant across. -/
theorem inv_updateEntry (s : DriverState V) (k : Key) (f : MapEntry V → MapEntry V)
    (h : Inv s) : Inv { s with memo := updateEntry s.memo k f } := by
  unfold Inv updateEntry at *
  simpa using h

theorem get_inv (now : Int) (s : DriverState V) (k : Key) (h : Inv s) :
    Inv (get now s k).2.1 := by
  cases hl : lookup s.memo k with
  | none => simp only [get, has_absent hl]; exact h
  | some e =>
      cases hp : isPrunableEntry now s.maxAge e with
      | false =>
          simp only [get, has_valid hl hp]
          simp only [if_true, hl]
          exact inv_updateEntry s k _ h
      | true =>
          simp only [get, has_prunable hl hp]
          simp only [Bool.false_eq_true, if_false]
          exact tryResetAging_inv2 _ (fun _ => h.mpr (lookup_ne_nil hl))

theorem getEntry_inv (now : Int) (s : DriverState V) (k : Key) (h : Inv s) :
    Inv (getEntry now s k).2.1 := by
  cases hl : lookup s.memo k with
  | none => simp only [getEntry, getEntryAux_absent hl]; exact h
  | some e =>
      cases hp : isPrunableEntry now s.maxAge e with
      | false =>
          simp only [getEntry, getEntryAux_valid hl hp]
          exact inv_updateEntry s k _ h
      | true =>
          simp only [getEntry, getEntryAux_prunable hl hp]
          exact tryResetAging_inv2 _ (fun _ => h.mpr (lookup_ne_nil hl))

theorem peak_inv (now : Int) (s : DriverState V) (k : Key) (h : Inv s) :
    Inv (peak now s k).2.1 :=
  getEntryAux_inv now s k h

theorem clear_inv (s : DriverState V) (h : Inv s) : Inv (clear s).1 := by
  unfold clear
  split
  · exact h
  · exact tryResetAging_inv2 _ (fun hc => absurd rfl hc)

theorem put_inv (now : Int) (s : DriverState V) (k : Key) (v : V) (ttl : Option Int)
    (h : Inv s) : Inv (put now s k v ttl).2.1 := by
  have h1 : Inv (getEntryAux now s k).2.1 := getEntryAux_inv now s k h
  unfold put
  dsimp only
  split
  · next hlen =>
      unfold tryStartAging
      rw [if_neg (by
        simp only [List.isEmpty_eq_true]
        intro hnil
        rw [hnil] at hlen
        simp at hlen)]
      refine ⟨fun _ => ?_, fun _ => rfl⟩
      exact insertEntry_ne_nil _ _ _
  · next hlen =>
      have hne : (getEntryAux now s k).2.1.memo ≠ [] := by
        intro hnil
        apply hlen
        rw [hnil]
        simp [insertEntry, lookup]
      exact ⟨fun _ => insertEntry_ne_nil _ _ _, fun _ => h1.mpr hne⟩

theorem setMaxEntryAge_inv (m : Option Int) (s : DriverState V) (h : Inv s)
    (hne : s.memo ≠ []) : Inv (setMaxEntryAge m s) := by
  unfold setMaxEntryAge
  split
  · exact ⟨fun _ => hne, fun _ => rfl⟩
  · exact h

theorem fireTimer_inv (now : Int) (s : DriverState V)
    (h : (fireTimer now s).2 ≠ [] ∨ ((fireTimer now s).1).memo = []) :
    Inv (fireTimer now s).1 := by
  cases hemp : (s.memo.filter (fun e => isPrunableEntry now s.maxAge e)).isEmpty with
  | true =>
      have hfe : fireTimer now s = ({ s with timer := false }, []) :=
        prune_of_no_prunable now { s with timer := false } hemp
      rw [hfe] at h ⊢
      rcases h with h1 | h1
      · exact absurd rfl h1
      · exact ⟨fun hc => by simp at hc, fun hc => absurd h1 hc⟩
  | false =>
      exact prune_state_inv now { s with timer := false } hemp

/-- Counterexample to C2: the `maxEntryAge` setter, a public Store
operation, invoked on an empty `Store(500)` with the valid new TTL 1000,
schedules a sweep timer while the entry mapping is empty — a pending
wakeup on an empty store, violating the claimed invariant preservation. -/
theorem C2_counterexample :
    Inv exS0
    ∧ (setMaxEntryAge (some 1000) exS0).memo = []
    ∧ (setMaxEntryAge (some 1000) exS0).timer = true
    ∧ ¬ Inv (setMaxEntryAge (some 1000) exS0) := by
  refine ⟨by decide, rfl, rfl, by decide⟩

/-- C2 (amended): the invariant "`timer` is outstanding iff `entries` is
non-empty" holds initially and is preserved by `put`, `remove`, `has`,
`get`, `getEntry`, `peak`, `clear`, by the lazily pruning
`entries`/`keys`/`size`/`isEmpty` getters, by the `maxEntryAge` setter on a
*non-empty* store, and by a timer-fired sweep that removed at least one
entry or left the store empty. It is *not* preserved by the setter on an
empty store (see the counterexample) nor by a timer-fired sweep that finds
nothing to remove in a non-empty store. -/
theorem C2_timer_invariant_preservation :
    (∀ (ma : Option Int), Inv (mkDriver ma : DriverState String))
    ∧ ∀ (now : Int) (s : DriverState String) (k : Key) (v : String) (ttl m : Option Int),
        Inv s →
        Inv (put now s k v ttl).2.1
        ∧ Inv (remove now s k).2.1
        ∧ Inv (has now s k).2.1
        ∧ Inv (get now s k).2.1
        ∧ Inv (getEntry now s k).2.1
        ∧ Inv (peak now s k).2.1
        ∧ Inv (clear s).1
        ∧ Inv (entriesProp now s).2.1
        ∧ Inv (keysProp now s).2.1
        ∧ Inv (sizeProp now s).2.1
        ∧ Inv (isEmptyProp now s).2.1
        ∧ (s.memo ≠ [] → Inv (setMaxEntryAge m s))
        ∧ (((fireTimer now s).2 ≠ [] ∨ ((fireTimer now s).1).memo = []) →
            Inv (fireTimer now s).1) := by
  constructor
  · intro ma
    exact ⟨fun hc => by simp [mkDriver] at hc, fun hc => absurd rfl hc⟩
  · intro now s k v ttl m h
    exact ⟨put_inv now s k v ttl h, remove_inv now s k h, has_inv now s k h,
      get_inv now s k h, getEntry_inv now s k h, peak_inv now s k h, clear_inv s h,
      prune_inv now s h, prune_inv now s h, prune_inv now s h, prune_inv now s h,
      fun hne => setMaxEntryAge_inv m s h hne,
      fun hc => fireTimer_inv now s hc⟩

/-- Witness for C2's amended theorem: the invariant holds on the one-entry
store `exS1` and is carried across a `remove`. -/
theorem C2_timer_invariant_preservation_witness :
    Inv exS1 ∧ Inv (remove 100 exS1 "a").2.1 :=
  ⟨by decide,
   (C2_timer_invariant_preservation.2 100 exS1 "a" "x" none none (by decide)).2.1⟩

/-! ## C7 -/

/-- After `emit(t)`, no `once`-flagged registration of type `t` remains in
the registry: they are deleted at listener-snapshot time, before the
deferred dispatch ever runs. -/
theorem emit_once_removed (t : EvType) (b : Bus) (p : EvType × ListenerRec)
    (hp : p ∈ (Bus.emit t b).1.regs) (ht : p.1 = t) : p.2.once = false := by
  unfold Bus.emit at hp
  dsimp only at hp
  split at hp
  · next hemp =>
      simp only [List.isEmpty_eq_true, List.map_eq_nil_iff, List.filter_eq_nil_iff] at hemp
      exact absurd ht (by simpa using hemp p hp)
  · have h2 := (List.mem_filter.mp hp).2
    simp only [decide_eq_true_eq] at h2
    cases ho : p.2.once with
    | false => rfl
    | true => exact absurd ⟨ht, ho⟩ h2

/-- A second `emit` of the same type schedules a batch containing no
`once` listeners: they were deregistered when the first `emit` snapshotted
them. -/
theorem second_emit_no_once (t : EvType) (b : Bus) (r : ListenerRec)
    (hr : r ∈ ((Bus.emit t (Bus.emit t b).1).2.getD [])) : r.once = false := by
  set b1 := (Bus.emit t b).1 with hb1
  unfold Bus.emit at hr
  dsimp only at hr
  split at hr
  · simp at hr
  · simp only [Option.getD_some] at hr
    obtain ⟨p, hpmem, rfl⟩ := List.mem_map.mp hr
    have hpt : p.1 = t := by simpa using (List.mem_filter.mp hpmem).2
    exact emit_once_removed t b p ((List.mem_filter.mp hpmem).1) hpt

/-- C7: a `once` registration fires at most once. The first two conjuncts
show deregistration happens at emit (snapshot) time — after any `emit(t)`
the registry holds no `once` records of type `t`, so a second `emit(t)`'s
deferred batch contains none of them. The last two conjuncts run the
spec's scenario: `once(CLEARED, fn)` then two `clear()` calls — with and
without a refill making the second `clear` actually emit — invoke `fn`
exactly once in total across all deferred batches, even though both clears
happen before any deferred dispatch executes. -/
theorem C7_once_single_fire :
    (∀ (t : EvType) (b : Bus) (p : EvType × ListenerRec),
        p ∈ (Bus.emit t b).1.regs → p.1 = t → p.2.once = false)
    ∧ (∀ (t : EvType) (b : Bus) (r : ListenerRec),
        r ∈ ((Bus.emit t (Bus.emit t b).1).2.getD []) → r.once = false)
    ∧ Sys.invocations 7 exSysFinal = 1
    ∧ Sys.invocations 7
        ((((exSys0.putOp 0 "a" "x" none).clearOp).putOp 1 "b" "y" none).clearOp) = 1 := by
  refine ⟨emit_once_removed, second_emit_no_once, by decide, by decide⟩

/-- A bus holding a persistent `on(CLEARED, fn₅)` plus a
`once(CLEARED, fn₇)` subscription. -/
def exBus2 : Bus := (Bus.once .CLEARED 7 (Bus.on .CLEARED 5 Bus.init).2).2

/-- Witness for C7: after one `emit(CLEARED)` on `exBus2`, the surviving
`CLEARED` registration is the persistent one and is not `once`-flagged. -/
theorem C7_once_single_fire_witness :
    ((EvType.CLEARED, (⟨1, 5, false⟩ : ListenerRec))
        ∈ (Bus.emit .CLEARED exBus2).1.regs)
    ∧ (⟨1, 5, false⟩ : ListenerRec).once = false :=
  ⟨by decide,
   C7_once_single_fire.1 .CLEARED exBus2 (EvType.CLEARED, ⟨1, 5, false⟩)
     (by decide) rfl⟩

end TimedMapModel
